import Mathlib

/-!
Verification of `Algorithm.Framework/Selection/FutureUniverseSelectionModel.py`.

The Python class is shallowly embedded as follows:

* `datetime` values are modelled as `Nat` timestamps; `datetime.min` is the
  minimum representable timestamp `datetimeMin = 0`, and `timedelta`s are `Nat`
  durations added to timestamps.
* `Symbol` follows the spec's data model for instrument identifiers (asset
  class, market, raw value, canonical flag), which is exactly the set of
  observables the source reads (`SecurityType`, `ID.Market`, `Value`,
  `IsCanonical()`); equality is structural.
* The engine (`algorithm`) is an explicit `AlgorithmState` record threaded
  through the functions; the selection model instance is a
  `FutureUniverseSelectionModel` record.
* `CreateUniverses` is a Python generator function; its body is embedded twice,
  in lock-step: `CreateUniversesRun` runs the whole cycle eagerly, and
  `genNext`/`stepLoop` give the suspended, step-at-a-time generator semantics
  (call allocates a suspended generator, the body runs only on iteration).
  `drainLoop_created` proves the two agree.
-/

namespace FutureSelection

/-- `datetime.min`: the minimum representable timestamp (timestamps are `Nat`). -/
def datetimeMin : Nat := 0

/-- Asset classes; the source only distinguishes `Future` from everything else. -/
inductive SecurityType where
  | Future
  | Equity
deriving DecidableEq, Repr

/-- Instrument identifier, per the spec's data model (the exact observables the
source reads from a QuantConnect `Symbol`). Equality is structural. -/
structure Symbol where
  securityType : SecurityType
  market : String
  value : String
  isCanonical : Bool
deriving DecidableEq, Repr

/-- Modelled from the spec: the engine's `Symbol.Create(ticker, type, market, alias)`
used at line 71 constructs the canonical chain identifier: it shares the market,
has the requested asset class, carries the alias (the `/`-prefixed value) as its
raw value and is marked canonical. -/
def Symbol.Create (_ticker : String) (securityType : SecurityType) (market : String)
    (aliasValue : String) : Symbol :=
  { securityType := securityType, market := market, value := aliasValue, isCanonical := true }

/-- Universe settings; the fields the source reads. -/
structure UniverseSettings where
  resolution : Nat
  fillForward : Bool
  extendedMarketHours : Bool
  leverage : Nat
  minimumTimeInUniverse : Nat
deriving DecidableEq, Repr

/-- A subscription data config as requested at lines 95-100. -/
structure SubscriptionDataConfig where
  dataType : String
  symbol : Symbol
  resolution : Nat
  fillForward : Bool
  extendedMarketHours : Bool
  isFilteredSubscription : Bool
deriving DecidableEq, Repr

/-- An engine-side security. `sid` is the creation index, serving as the object
identity of this instance; `filterSetCount` records how many times `SetFilter`
has been applied to it (so re-attachment of the filter hook is observable). -/
structure Security where
  key : Symbol
  sid : Nat
  leverage : Nat
  filterSetCount : Nat
deriving DecidableEq, Repr

/-- The slice of the engine (`algorithm`) state the source touches: current UTC
time, engine-wide default settings, the security registry, the subscription
configs created so far, and the next free security identity. -/
structure AlgorithmState where
  utcTime : Nat
  universeSettings : UniverseSettings
  securities : List Security
  subscriptions : List SubscriptionDataConfig
  nextSid : Nat
deriving DecidableEq, Repr

/-- The universe produced for one chain (line 85). -/
structure FuturesChainUniverse where
  futureChain : Security
  universeSettings : UniverseSettings
deriving DecidableEq, Repr

/-- The selection model's own state, as set up by `__init__`. -/
structure FutureUniverseSelectionModel where
  nextRefreshTimeUtc : Nat
  refreshInterval : Nat
  futureChainSymbolSelector : Nat → List Symbol
  universeSettings : Option UniverseSettings

/-- `__init__` (lines 21-34). -/
def FutureUniverseSelectionModel.init (refreshInterval : Nat)
    (futureChainSymbolSelector : Nat → List Symbol)
    (universeSettings : Option UniverseSettings) : FutureUniverseSelectionModel :=
  { nextRefreshTimeUtc := datetimeMin
  , refreshInterval := refreshInterval
  , futureChainSymbolSelector := futureChainSymbolSelector
  , universeSettings := universeSettings }

/-- `GetNextRefreshTimeUtc` (lines 36-38): pure read of the stored field. -/
def FutureUniverseSelectionModel.GetNextRefreshTimeUtc
    (self : FutureUniverseSelectionModel) : Nat :=
  self.nextRefreshTimeUtc

/-- `Filter` (lines 104-107): the default chain filter is the identity (NOP). -/
def FutureUniverseSelectionModel.Filter (_self : FutureUniverseSelectionModel)
    {α : Type} (filter : α) : α :=
  filter

/-- Modelled from the spec: `futureChain.SetFilter(...)` (line 83) attaches the
filter hook to the chain security; each attachment is counted so that
re-attachment on later cycles is observable. Key and identity are untouched. -/
def Security.SetFilter (sec : Security) : Security :=
  { sec with filterSetCount := sec.filterSetCount + 1 }

/-- Modelled from the spec: writing the mutated security object back into the
registry (Python mutates the shared object in place; here the entry with the
same object identity `sid` is replaced). -/
def AlgorithmState.updateSecurity (a : AlgorithmState) (sec : Security) : AlgorithmState :=
  { a with securities := a.securities.map (fun s => if s.sid = sec.sid then sec else s) }

/-- Lines 68-71 of `CreateFutureChain`: rewrite non-canonical symbols to be
canonical (this is the spec's `Canonicalize`, after the asset-class guard). -/
def canonicalizeSymbol (symbol : Symbol) : Symbol :=
  let market := symbol.market
  if symbol.isCanonical then symbol
  else Symbol.Create symbol.value SecurityType.Future market ("/" ++ symbol.value)

/-- Line 74: resolve defaults if not specified. -/
def effectiveSettings (self : FutureUniverseSelectionModel) (a : AlgorithmState) :
    UniverseSettings :=
  match self.universeSettings with
  | some s => s
  | none => a.universeSettings

/-- `CreateFutureChainSecurity` (lines 87-102): request a subscription config
from the subscription service and materialize a new security in the registry. -/
def CreateFutureChainSecurity (_self : FutureUniverseSelectionModel)
    (a : AlgorithmState) (symbol : Symbol) (settings : UniverseSettings) :
    Security × AlgorithmState :=
  let config : SubscriptionDataConfig :=
    { dataType := "ZipEntryName"
    , symbol := symbol
    , resolution := settings.resolution
    , fillForward := settings.fillForward
    , extendedMarketHours := settings.extendedMarketHours
    , isFilteredSubscription := false }
  let sec : Security :=
    { key := symbol, sid := a.nextSid, leverage := settings.leverage, filterSetCount := 0 }
  (sec
  , { a with
      subscriptions := a.subscriptions ++ [config]
    , securities := a.securities ++ [sec]
    , nextSid := a.nextSid + 1 })

/-- Lines 75-80 of `CreateFutureChain`: create canonical security object, but
don't duplicate if it already exists (the spec's `ResolveOrCreate`). -/
def resolveOrCreate (self : FutureUniverseSelectionModel) (a : AlgorithmState)
    (symbol : Symbol) (settings : UniverseSettings) : Security × AlgorithmState :=
  let securities := a.securities.filter (fun s => s.key == symbol)
  match securities with
  | [] => CreateFutureChainSecurity self a symbol settings
  | sec :: _ => (sec, a)

/-- `CreateFutureChain` (lines 58-85). -/
def CreateFutureChain (self : FutureUniverseSelectionModel) (a : AlgorithmState)
    (symbol : Symbol) : Except String (FuturesChainUniverse × AlgorithmState) :=
  if symbol.securityType ≠ SecurityType.Future then
    Except.error "CreateFutureChain requires an future symbol."
  else
    let symbol := canonicalizeSymbol symbol
    let settings := effectiveSettings self a
    let r := resolveOrCreate self a symbol settings
    let futureChain := r.1.SetFilter
    let a2 := r.2.updateSecurity futureChain
    Except.ok ({ futureChain := futureChain, universeSettings := settings }, a2)

/-- The loop body of `CreateUniverses` (lines 48-56), run eagerly: returns the
universes yielded (in order), the exception raised if any, and the final engine
state. `uniqueSymbols` is the set of concrete symbols already seen. -/
def createUniversesLoop (self : FutureUniverseSelectionModel) (a : AlgorithmState) :
    List Symbol → List Symbol → List FuturesChainUniverse × Option String × AlgorithmState
  | [], _ => ([], none, a)
  | futureSymbol :: rest, uniqueSymbols =>
    if futureSymbol.securityType ≠ SecurityType.Future then
      ([], some "futureChainSymbolSelector must return future symbols.", a)
    else if futureSymbol ∈ uniqueSymbols then
      createUniversesLoop self a rest uniqueSymbols
    else
      match CreateFutureChain self a futureSymbol with
      | Except.error e => ([], some e, a)
      | Except.ok (u, a2) =>
        let r := createUniversesLoop self a2 rest (uniqueSymbols ++ [futureSymbol])
        (u :: r.1, r.2.1, r.2.2)

/-- Result of running one whole `CreateUniverses` cycle to completion. -/
structure RunResult where
  universes : List FuturesChainUniverse
  error : Option String
  model : FutureUniverseSelectionModel
  algorithm : AlgorithmState

/-- `CreateUniverses` (lines 40-56) run eagerly to completion: advance the
schedule (line 46), invoke the selector with the engine time (line 49), then
run the loop. -/
def CreateUniversesRun (self : FutureUniverseSelectionModel) (a : AlgorithmState) :
    RunResult :=
  let self2 := { self with nextRefreshTimeUtc := a.utcTime + self.refreshInterval }
  let r := createUniversesLoop self2 a (self2.futureChainSymbolSelector a.utcTime) []
  { universes := r.1, error := r.2.1, model := self2, algorithm := r.2.2 }

/-- State of the suspended generator returned by calling `CreateUniverses`:
not yet started, suspended inside the loop (with the remaining candidates and
the seen-set), or exhausted. -/
inductive GenState where
  | created
  | running (remaining : List Symbol) (uniqueSymbols : List Symbol)
  | finished
deriving Repr

/-- What one resumption of the generator produces. -/
inductive GenOutput where
  | yielded (u : FuturesChainUniverse)
  | stopIteration
  | raised (msg : String)
deriving DecidableEq, Repr

/-- One resumption step inside the loop (lines 49-56): advance through the
candidates until the next yield, a raise, or exhaustion. -/
def stepLoop (self : FutureUniverseSelectionModel) (a : AlgorithmState) :
    List Symbol → List Symbol → GenOutput × GenState × AlgorithmState
  | [], _ => (GenOutput.stopIteration, GenState.finished, a)
  | futureSymbol :: rest, uniqueSymbols =>
    if futureSymbol.securityType ≠ SecurityType.Future then
      (GenOutput.raised "futureChainSymbolSelector must return future symbols.",
       GenState.finished, a)
    else if futureSymbol ∈ uniqueSymbols then
      stepLoop self a rest uniqueSymbols
    else
      match CreateFutureChain self a futureSymbol with
      | Except.error e => (GenOutput.raised e, GenState.finished, a)
      | Except.ok (u, a2) =>
        (GenOutput.yielded u, GenState.running rest (uniqueSymbols ++ [futureSymbol]), a2)

/-- Resume the generator once against the current model and engine state. The
`created` case is the first resumption: it executes line 46 (advance the
schedule) and only then enters the loop, reading the engine clock at resumption
time. -/
def genNext (g : GenState) (self : FutureUniverseSelectionModel) (a : AlgorithmState) :
    GenOutput × GenState × FutureUniverseSelectionModel × AlgorithmState :=
  match g with
  | GenState.created =>
    let self2 := { self with nextRefreshTimeUtc := a.utcTime + self.refreshInterval }
    let r := stepLoop self2 a (self2.futureChainSymbolSelector a.utcTime) []
    (r.1, r.2.1, self2, r.2.2)
  | GenState.running remaining uniqueSymbols =>
    let r := stepLoop self a remaining uniqueSymbols
    (r.1, r.2.1, self, r.2.2)
  | GenState.finished => (GenOutput.stopIteration, GenState.finished, self, a)

/-- Calling `CreateUniverses` (line 40). The def is a Python generator function:
per Python's generator semantics, the call allocates a suspended generator and
executes none of the body; the model and engine state are returned untouched and
the body runs only through `genNext`. -/
def CreateUniverses (self : FutureUniverseSelectionModel) (a : AlgorithmState) :
    GenState × FutureUniverseSelectionModel × AlgorithmState :=
  (GenState.created, self, a)

/-- Run the suspended generator to exhaustion by repeated `genNext`, collecting
the yielded universes and the raised exception if any (`fuel` bounds the number
of resumptions; any `fuel` beyond the candidate count is enough). -/
def drainLoop : Nat → GenState → FutureUniverseSelectionModel → AlgorithmState →
    List FuturesChainUniverse × Option String × FutureUniverseSelectionModel × AlgorithmState
  | 0, _, self, a => ([], none, self, a)
  | Nat.succ fuel, g, self, a =>
    match genNext g self a with
    | (GenOutput.yielded u, g2, self2, a2) =>
      let r := drainLoop fuel g2 self2 a2
      (u :: r.1, r.2.1, r.2.2.1, r.2.2.2)
    | (GenOutput.raised msg, _, self2, a2) => ([], some msg, self2, a2)
    | (GenOutput.stopIteration, _, self2, a2) => ([], none, self2, a2)

/-- The first occurrence of each symbol (others dropped), seeded with an
already-seen set: the reference semantics of the `uniqueSymbols` guard. -/
def firstOccurrences : List Symbol → List Symbol → List Symbol
  | [], _ => []
  | s :: rest, seen =>
    if s ∈ seen then firstOccurrences rest seen
    else s :: firstOccurrences rest (seen ++ [s])

theorem Security.SetFilter_key (sec : Security) : sec.SetFilter.key = sec.key := rfl

theorem Security.SetFilter_sid (sec : Security) : sec.SetFilter.sid = sec.sid := rfl

theorem updateSecurity_subscriptions (a : AlgorithmState) (sec : Security) :
    (a.updateSecurity sec).subscriptions = a.subscriptions := rfl

theorem updateSecurity_universeSettings (a : AlgorithmState) (sec : Security) :
    (a.updateSecurity sec).universeSettings = a.universeSettings := rfl

theorem updateSecurity_length (a : AlgorithmState) (sec : Security) :
    (a.updateSecurity sec).securities.length = a.securities.length := by
  simp [AlgorithmState.updateSecurity]

/-- The provisioner always returns a security keyed by the requested symbol. -/
theorem resolveOrCreate_key (self : FutureUniverseSelectionModel) (a : AlgorithmState)
    (symbol : Symbol) (settings : UniverseSettings) :
    ((resolveOrCreate self a symbol settings).1).key = symbol := by
  rw [resolveOrCreate]
  cases h : a.securities.filter (fun s => s.key == symbol) with
  | nil => simp [h, CreateFutureChainSecurity]
  | cons sec tl =>
    have hmem : sec ∈ a.securities.filter (fun s => s.key == symbol) := by
      rw [h]; exact List.mem_cons_self _ _
    have hkey := (List.mem_filter.mp hmem).2
    simp only [h]
    simpa using hkey

/-- The security the provisioner returns is present in the registry afterwards. -/
theorem resolveOrCreate_mem (self : FutureUniverseSelectionModel) (a : AlgorithmState)
    (symbol : Symbol) (settings : UniverseSettings) :
    (resolveOrCreate self a symbol settings).1 ∈
      ((resolveOrCreate self a symbol settings).2).securities := by
  rw [resolveOrCreate]
  cases h : a.securities.filter (fun s => s.key == symbol) with
  | nil => simp [h, CreateFutureChainSecurity]
  | cons sec tl =>
    have hmem : sec ∈ a.securities.filter (fun s => s.key == symbol) := by
      rw [h]; exact List.mem_cons_self _ _
    simp only [h]
    exact List.mem_of_mem_filter hmem

theorem resolveOrCreate_universeSettings (self : FutureUniverseSelectionModel)
    (a : AlgorithmState) (symbol : Symbol) (settings : UniverseSettings) :
    ((resolveOrCreate self a symbol settings).2).universeSettings = a.universeSettings := by
  rw [resolveOrCreate]
  cases h : a.securities.filter (fun s => s.key == symbol) with
  | nil => simp [h, CreateFutureChainSecurity]
  | cons sec tl => simp [h]

/-- On a symbol of the right asset class, `CreateFutureChain` succeeds and is
exactly: canonicalize, resolve-or-create, attach the filter hook, pair with the
effective settings. -/
theorem CreateFutureChain_eq (self : FutureUniverseSelectionModel) (a : AlgorithmState)
    {symbol : Symbol} (hs : symbol.securityType = SecurityType.Future) :
    CreateFutureChain self a symbol =
      Except.ok
        ({ futureChain :=
             ((resolveOrCreate self a (canonicalizeSymbol symbol)
                (effectiveSettings self a)).1).SetFilter
         , universeSettings := effectiveSettings self a }
        , ((resolveOrCreate self a (canonicalizeSymbol symbol)
              (effectiveSettings self a)).2).updateSecurity
            (((resolveOrCreate self a (canonicalizeSymbol symbol)
                (effectiveSettings self a)).1).SetFilter)) := by
  rw [CreateFutureChain, if_neg (by simp [hs])]

theorem takeWhile_eq_self_of_all {α : Type} {p : α → Bool} :
    ∀ l : List α, (∀ s ∈ l, p s = true) → l.takeWhile p = l := by
  intro l
  induction l with
  | nil => intro _; rfl
  | cons s rest ih =>
    intro h
    have hs : p s = true := h s (List.mem_cons_self _ _)
    simp [List.takeWhile, hs, ih fun x hx => h x (List.mem_cons_of_mem _ hx)]

/-- The canonical identifiers of the universes the loop yields are exactly the
canonicalizations of the first occurrences of the candidates up to the first
one of a wrong asset class; dedup happens on the concrete symbol. -/
theorem createUniversesLoop_keys (self : FutureUniverseSelectionModel) :
    ∀ (l uniq : List Symbol) (a : AlgorithmState),
      (createUniversesLoop self a l uniq).1.map (fun u => u.futureChain.key)
        = (firstOccurrences (l.takeWhile fun s => s.securityType == SecurityType.Future)
            uniq).map canonicalizeSymbol := by
  intro l
  induction l with
  | nil => intro uniq a; simp [createUniversesLoop, firstOccurrences]
  | cons s rest ih =>
    intro uniq a
    by_cases hs : s.securityType = SecurityType.Future
    · rw [createUniversesLoop, if_neg (by simp [hs])]
      have htw : (s :: rest).takeWhile (fun s => s.securityType == SecurityType.Future)
          = s :: rest.takeWhile (fun s => s.securityType == SecurityType.Future) := by
        simp [List.takeWhile_cons, hs]
      rw [htw]
      by_cases hmem : s ∈ uniq
      · rw [if_pos hmem, firstOccurrences, if_pos hmem]
        exact ih uniq a
      · rw [if_neg hmem, firstOccurrences, if_neg hmem, CreateFutureChain_eq self a hs]
        simp only [List.map_cons]
        rw [Security.SetFilter_key, resolveOrCreate_key, ih (uniq ++ [s])]
    · rw [createUniversesLoop, if_pos (by simp [hs])]
      have htw : (s :: rest).takeWhile (fun s => s.securityType == SecurityType.Future)
          = [] := by
        simp [List.takeWhile_cons, hs]
      rw [htw]
      simp [firstOccurrences]

/-- The loop raises exactly when some candidate has the wrong asset class, with
the source's error message. -/
theorem createUniversesLoop_error (self : FutureUniverseSelectionModel) :
    ∀ (l uniq : List Symbol) (a : AlgorithmState),
      (createUniversesLoop self a l uniq).2.1
        = if ∀ s ∈ l, s.securityType = SecurityType.Future then none
          else some "futureChainSymbolSelector must return future symbols." := by
  intro l
  induction l with
  | nil => intro uniq a; simp [createUniversesLoop]
  | cons s rest ih =>
    intro uniq a
    by_cases hs : s.securityType = SecurityType.Future
    · rw [createUniversesLoop, if_neg (by simp [hs])]
      have hiff : (∀ x ∈ s :: rest, x.securityType = SecurityType.Future)
          ↔ (∀ x ∈ rest, x.securityType = SecurityType.Future) := by
        simp [hs]
      rw [if_congr hiff rfl rfl]
      by_cases hmem : s ∈ uniq
      · rw [if_pos hmem]
        exact ih uniq a
      · rw [if_neg hmem, CreateFutureChain_eq self a hs]
        exact ih (uniq ++ [s]) _
    · rw [createUniversesLoop, if_pos (by simp [hs])]
      rw [if_neg (by intro h; exact hs (h s (List.mem_cons_self _ _)))]

/-- Draining the suspended loop step by step agrees with the eager loop. -/
theorem drainLoop_running (self : FutureUniverseSelectionModel) :
    ∀ (l uniq : List Symbol) (fuel : Nat) (a : AlgorithmState), l.length < fuel →
      drainLoop fuel (GenState.running l uniq) self a
        = ((createUniversesLoop self a l uniq).1
          , (createUniversesLoop self a l uniq).2.1
          , self
          , (createUniversesLoop self a l uniq).2.2) := by
  intro l
  induction l with
  | nil =>
    intro uniq fuel a hfuel
    match fuel, hfuel with
    | Nat.succ f, _ => simp [drainLoop, genNext, stepLoop, createUniversesLoop]
  | cons s rest ih =>
    intro uniq fuel a hfuel
    match fuel, hfuel with
    | Nat.succ f, hfuel =>
      by_cases hs : s.securityType = SecurityType.Future
      · by_cases hmem : s ∈ uniq
        · have hstep : stepLoop self a (s :: rest) uniq = stepLoop self a rest uniq := by
            rw [stepLoop, if_neg (by simp [hs]), if_pos hmem]
          have hloop : createUniversesLoop self a (s :: rest) uniq
              = createUniversesLoop self a rest uniq := by
            rw [createUniversesLoop, if_neg (by simp [hs]), if_pos hmem]
          rw [hloop, ← ih uniq (Nat.succ f) a
            (Nat.lt_of_le_of_lt (Nat.le_succ _) hfuel)]
          show (match genNext (GenState.running (s :: rest) uniq) self a with
            | (GenOutput.yielded u, g2, self2, a2) =>
              let r := drainLoop f g2 self2 a2
              (u :: r.1, r.2.1, r.2.2.1, r.2.2.2)
            | (GenOutput.raised msg, _, self2, a2) => ([], some msg, self2, a2)
            | (GenOutput.stopIteration, _, self2, a2) => ([], none, self2, a2))
            = drainLoop (Nat.succ f) (GenState.running rest uniq) self a
          rw [drainLoop]
          show (match genNext (GenState.running (s :: rest) uniq) self a with
            | (GenOutput.yielded u, g2, self2, a2) =>
              let r := drainLoop f g2 self2 a2
              (u :: r.1, r.2.1, r.2.2.1, r.2.2.2)
            | (GenOutput.raised msg, _, self2, a2) => ([], some msg, self2, a2)
            | (GenOutput.stopIteration, _, self2, a2) => ([], none, self2, a2))
            = (match genNext (GenState.running rest uniq) self a with
            | (GenOutput.yielded u, g2, self2, a2) =>
              let r := drainLoop f g2 self2 a2
              (u :: r.1, r.2.1, r.2.2.1, r.2.2.2)
            | (GenOutput.raised msg, _, self2, a2) => ([], some msg, self2, a2)
            | (GenOutput.stopIteration, _, self2, a2) => ([], none, self2, a2))
          rw [genNext, genNext, hstep]
        · have hstep : stepLoop self a (s :: rest) uniq
              = (GenOutput.yielded
                  { futureChain :=
                      ((resolveOrCreate self a (canonicalizeSymbol s)
                        (effectiveSettings self a)).1).SetFilter
                  , universeSettings := effectiveSettings self a }
                , GenState.running rest (uniq ++ [s])
                , ((resolveOrCreate self a (canonicalizeSymbol s)
                    (effectiveSettings self a)).2).updateSecurity
                    (((resolveOrCreate self a (canonicalizeSymbol s)
                      (effectiveSettings self a)).1).SetFilter)) := by
            rw [stepLoop, if_neg (by simp [hs]), if_neg hmem, CreateFutureChain_eq self a hs]
          rw [drainLoop]
          show (match genNext (GenState.running (s :: rest) uniq) self a with
            | (GenOutput.yielded u, g2, self2, a2) =>
              let r := drainLoop f g2 self2 a2
              (u :: r.1, r.2.1, r.2.2.1, r.2.2.2)
            | (GenOutput.raised msg, _, self2, a2) => ([], some msg, self2, a2)
            | (GenOutput.stopIteration, _, self2, a2) => ([], none, self2, a2)) = _
          rw [genNext, hstep]
          simp only []
          rw [ih (uniq ++ [s]) f _ (Nat.lt_of_succ_lt_succ (by simpa using hfuel))]
          rw [createUniversesLoop, if_neg (by simp [hs]), if_neg hmem,
            CreateFutureChain_eq self a hs]
      · have hstep : stepLoop self a (s :: rest) uniq
            = (GenOutput.raised "futureChainSymbolSelector must return future symbols.",
               GenState.finished, a) := by
          rw [stepLoop, if_pos (by simp [hs])]
        rw [drainLoop]
        show (match genNext (GenState.running (s :: rest) uniq) self a with
          | (GenOutput.yielded u, g2, self2, a2) =>
            let r := drainLoop f g2 self2 a2
            (u :: r.1, r.2.1, r.2.2.1, r.2.2.2)
          | (GenOutput.raised msg, _, self2, a2) => ([], some msg, self2, a2)
          | (GenOutput.stopIteration, _, self2, a2) => ([], none, self2, a2)) = _
        rw [genNext, hstep]
        rw [createUniversesLoop, if_pos (by simp [hs])]

/-- Fully consuming the generator returned by calling `CreateUniverses` agrees
with the eager, whole-cycle run `CreateUniversesRun`. -/
theorem drainLoop_created (self : FutureUniverseSelectionModel) (a : AlgorithmState)
    (fuel : Nat) (hfuel : (self.futureChainSymbolSelector a.utcTime).length < fuel) :
    drainLoop (Nat.succ fuel) GenState.created self a
      = ((CreateUniversesRun self a).universes
        , (CreateUniversesRun self a).error
        , (CreateUniversesRun self a).model
        , (CreateUniversesRun self a).algorithm) := by
  have hbridge : drainLoop (Nat.succ fuel) GenState.created self a
      = drainLoop (Nat.succ fuel)
          (GenState.running (self.futureChainSymbolSelector a.utcTime) [])
          { self with nextRefreshTimeUtc := a.utcTime + self.refreshInterval } a := by
    rw [drainLoop, drainLoop]
    rcases hstep : stepLoop
        { self with nextRefreshTimeUtc := a.utcTime + self.refreshInterval } a
        (self.futureChainSymbolSelector a.utcTime) [] with ⟨out, g2, a2⟩
    have hg1 : genNext GenState.created self a
        = (out, g2, { self with nextRefreshTimeUtc := a.utcTime + self.refreshInterval },
           a2) := by
      rw [genNext]
      show (_, _, _, _) = _
      rw [hstep]
    have hg2 : genNext (GenState.running (self.futureChainSymbolSelector a.utcTime) [])
        { self with nextRefreshTimeUtc := a.utcTime + self.refreshInterval } a
        = (out, g2, { self with nextRefreshTimeUtc := a.utcTime + self.refreshInterval },
           a2) := by
      rw [genNext]
      show (_, _, _, _) = _
      rw [hstep]
    rw [hg1, hg2]
  rw [hbridge, drainLoop_running _ _ _ _ _ (Nat.lt_succ_of_lt hfuel)]
  rfl

/-! Concrete fixtures used by witnesses and counterexamples. -/

/-- A concrete (non-canonical) ES future identifier. -/
def symES : Symbol := ⟨SecurityType.Future, "CME", "ES", false⟩

/-- A concrete (non-canonical) GC future identifier. -/
def symGC : Symbol := ⟨SecurityType.Future, "CME", "GC", false⟩

/-- The canonical ES chain identifier: what `symES` canonicalizes to. -/
def symESCanonical : Symbol := ⟨SecurityType.Future, "CME", "/ES", true⟩

/-- An identifier of a disallowed asset class. -/
def symSPY : Symbol := ⟨SecurityType.Equity, "USA", "SPY", false⟩

/-- A same-underlying identifier differing from `symES` only in asset class. -/
def symESWrongClass : Symbol := ⟨SecurityType.Equity, "CME", "ES", false⟩

def defaultSettings : UniverseSettings := ⟨1, true, false, 2, 0⟩

/-- A fresh engine state at time 100 with an empty registry. -/
def algo0 : AlgorithmState := ⟨100, defaultSettings, [], [], 0⟩

/-- Selection rule `[X, Y, X']` with `X` and `X'` distinct concrete identifiers
canonicalizing to the same canonical identifier. -/
def selectorXYX : Nat → List Symbol := fun _ => [symES, symGC, symESCanonical]

def modelXYX : FutureUniverseSelectionModel :=
  FutureUniverseSelectionModel.init 5 selectorXYX none

/-- Selection rule `[X, Y, X]` with an exactly repeated identifier. -/
def selectorRepeat : Nat → List Symbol := fun _ => [symES, symGC, symES]

def modelRepeat : FutureUniverseSelectionModel :=
  FutureUniverseSelectionModel.init 5 selectorRepeat none

/-- Selection rule returning a valid future before a wrong-asset-class one. -/
def selectorGoodBad : Nat → List Symbol := fun _ => [symES, symSPY]

def modelGoodBad : FutureUniverseSelectionModel :=
  FutureUniverseSelectionModel.init 3 selectorGoodBad none

/-- Selection rule whose first candidate has the wrong asset class. -/
def selectorBadFirst : Nat → List Symbol := fun _ => [symSPY]

def modelBadFirst : FutureUniverseSelectionModel :=
  FutureUniverseSelectionModel.init 7 selectorBadFirst none

/-- Extract the payload of a successful `CreateFutureChain` call. -/
def okResult (r : Except String (FuturesChainUniverse × AlgorithmState)) :
    FuturesChainUniverse × AlgorithmState :=
  match r with
  | Except.ok p => p
  | Except.error _ =>
    (⟨⟨⟨SecurityType.Future, "", "", true⟩, 0, 0, 0⟩, ⟨0, false, false, 0, 0⟩⟩,
     ⟨0, ⟨0, false, false, 0, 0⟩, [], [], 0⟩)

/-- The engine state after a first `CreateFutureChain` cycle for `symES`:
the canonical ES security now exists in the registry. -/
def algoAfterES : AlgorithmState := (okResult (CreateFutureChain modelXYX algo0 symES)).2

/-! The claims. -/

/-- C1, counterexample: the selection rule `[X, Y, X']` of `modelXYX` has
`X = symES` and `X' = symESCanonical` distinct concrete identifiers that
canonicalize to the same canonical identifier, yet `CreateUniverses` yields
two universes for that canonical identifier, not exactly one: dedup compares
the concrete identifiers before canonicalization. -/
theorem createUniverses_dedup_counterexample :
    canonicalizeSymbol symES = canonicalizeSymbol symESCanonical
    ∧ symES ≠ symESCanonical
    ∧ ((CreateUniversesRun modelXYX algo0).universes.filter
        (fun u => u.futureChain.key == canonicalizeSymbol symES)).length = 2 := by
  decide

/-- C1, amended: deduplication within a cycle is by concrete-identifier
equality, applied before canonicalization. For a selection rule returning only
future identifiers, `CreateUniverses` raises nothing and yields one universe
per first occurrence of each distinct concrete identifier, in order, each
keyed by that identifier's canonicalization; exactly repeated identifiers are
silently dropped, but distinct concrete identifiers canonicalizing to the same
canonical identifier each yield their own universe. -/
theorem createUniverses_dedup_by_concrete_identifier :
    ∀ (self : FutureUniverseSelectionModel) (a : AlgorithmState),
      (∀ s ∈ self.futureChainSymbolSelector a.utcTime,
        s.securityType = SecurityType.Future) →
      (CreateUniversesRun self a).universes.map (fun u => u.futureChain.key)
          = (firstOccurrences (self.futureChainSymbolSelector a.utcTime) []).map
              canonicalizeSymbol
      ∧ (CreateUniversesRun self a).error = none := by
  intro self a h
  constructor
  · have hkeys := createUniversesLoop_keys
      { self with nextRefreshTimeUtc := a.utcTime + self.refreshInterval }
      (self.futureChainSymbolSelector a.utcTime) [] a
    rw [takeWhile_eq_self_of_all _ (fun s hs => by simp [h s hs])] at hkeys
    exact hkeys
  · have herr := createUniversesLoop_error
      { self with nextRefreshTimeUtc := a.utcTime + self.refreshInterval }
      (self.futureChainSymbolSelector a.utcTime) [] a
    rw [if_pos h] at herr
    exact herr

/-- Witness for C1 (amended), at the selection rule `[X, Y, X]` with an exact
repeat: two universes, keyed `/ES` then `/GC`. -/
theorem createUniverses_dedup_witness :
    (∀ s ∈ modelRepeat.futureChainSymbolSelector algo0.utcTime,
      s.securityType = SecurityType.Future)
    ∧ (CreateUniversesRun modelRepeat algo0).universes.map (fun u => u.futureChain.key)
        = (firstOccurrences (modelRepeat.futureChainSymbolSelector algo0.utcTime) []).map
            canonicalizeSymbol :=
  ⟨by decide,
   (createUniverses_dedup_by_concrete_identifier modelRepeat algo0 (by decide)).1⟩

/-- C2: canonicalization is a pure, deterministic function of the underlying:
two concrete (non-canonical) identifiers with the same market and raw value
(the same underlying) canonicalize to the same canonical chain identifier,
regardless of which one triggered canonicalization. -/
theorem canonicalize_pure_function_of_underlying :
    ∀ s1 s2 : Symbol, s1.isCanonical = false → s2.isCanonical = false →
      s1.market = s2.market → s1.value = s2.value →
      canonicalizeSymbol s1 = canonicalizeSymbol s2 := by
  intro s1 s2 h1 h2 hm hv
  simp [canonicalizeSymbol, Symbol.Create, h1, h2, hm, hv]

/-- Witness for C2 at two distinct concrete identifiers sharing an underlying. -/
theorem canonicalize_pure_witness :
    symES.isCanonical = false ∧ symESWrongClass.isCanonical = false
    ∧ symES.market = symESWrongClass.market ∧ symES.value = symESWrongClass.value
    ∧ canonicalizeSymbol symES = canonicalizeSymbol symESWrongClass :=
  ⟨by decide, by decide, by decide, by decide,
   canonicalize_pure_function_of_underlying symES symESWrongClass
     (by decide) (by decide) (by decide) (by decide)⟩

/-- C4: after a (consumed) `CreateUniverses` cycle at engine time `t`,
`GetNextRefreshTimeUtc()` returns exactly `t + refreshInterval`, for every
selection rule, whether it succeeds, returns duplicates, or raises. -/
theorem schedule_monotonicity :
    ∀ (self : FutureUniverseSelectionModel) (a : AlgorithmState),
      ((CreateUniversesRun self a).model).GetNextRefreshTimeUtc
        = a.utcTime + self.refreshInterval := by
  intro self a
  rfl

/-- C5: the body of `CreateUniverses` sets
`nextRefreshTimeUtc = currentEngineTime + refreshInterval` before any selection
work: already at the first resumption of the generator the model handed onwards
carries the advanced due time, whatever the resumption produced — in particular
even when the selection raises, the next due time has advanced. -/
theorem schedule_advances_before_selection :
    ∀ (self : FutureUniverseSelectionModel) (a : AlgorithmState),
      ((genNext GenState.created self a).2.2.1).nextRefreshTimeUtc
        = a.utcTime + self.refreshInterval
      ∧ ∀ msg, (genNext GenState.created self a).1 = GenOutput.raised msg →
          ((genNext GenState.created self a).2.2.1).GetNextRefreshTimeUtc
            = a.utcTime + self.refreshInterval := by
  intro self a
  exact ⟨rfl, fun _ _ => rfl⟩

/-- Witness for C5 at a selection rule that raises immediately: the exception
surfaces, yet the due time has advanced. -/
theorem schedule_advances_witness :
    (genNext GenState.created modelBadFirst algo0).1
      = GenOutput.raised "futureChainSymbolSelector must return future symbols."
    ∧ ((genNext GenState.created modelBadFirst algo0).2.2.1).GetNextRefreshTimeUtc
        = algo0.utcTime + modelBadFirst.refreshInterval :=
  ⟨by decide,
   (schedule_advances_before_selection modelBadFirst algo0).2
     "futureChainSymbolSelector must return future symbols." (by decide)⟩

/-- C6, counterexample: a selection rule returning a valid future before the
wrong-asset-class identifier makes `CreateUniverses` fail with the
`InvalidArgument` error, but a universe was still produced for the valid
identifier before the exception: "produces no universes" does not hold. -/
theorem assetClass_rejection_counterexample :
    (∃ s ∈ modelGoodBad.futureChainSymbolSelector algo0.utcTime,
      s.securityType ≠ SecurityType.Future)
    ∧ (CreateUniversesRun modelGoodBad algo0).error
        = some "futureChainSymbolSelector must return future symbols."
    ∧ (CreateUniversesRun modelGoodBad algo0).universes ≠ [] := by
  decide

/-- C6, amended: a selection rule yielding any identifier of a disallowed asset
class causes `CreateUniverses` to fail with the `InvalidArgument` error
(`ValueError`), aborting the cycle at the first offending identifier; universes
are still yielded for the distinct valid identifiers preceding it, so no
universes are produced exactly when the offending identifier precedes any
valid yield. -/
theorem assetClass_rejection :
    ∀ (self : FutureUniverseSelectionModel) (a : AlgorithmState),
      (∃ s ∈ self.futureChainSymbolSelector a.utcTime,
        s.securityType ≠ SecurityType.Future) →
      (CreateUniversesRun self a).error
          = some "futureChainSymbolSelector must return future symbols."
      ∧ (CreateUniversesRun self a).universes.map (fun u => u.futureChain.key)
          = (firstOccurrences ((self.futureChainSymbolSelector a.utcTime).takeWhile
              (fun s => s.securityType == SecurityType.Future)) []).map
              canonicalizeSymbol := by
  intro self a h
  constructor
  · have herr := createUniversesLoop_error
      { self with nextRefreshTimeUtc := a.utcTime + self.refreshInterval }
      (self.futureChainSymbolSelector a.utcTime) [] a
    rw [if_neg (by
      intro hall
      rcases h with ⟨s, hsmem, hbad⟩
      exact hbad (hall s hsmem))] at herr
    exact herr
  · exact createUniversesLoop_keys
      { self with nextRefreshTimeUtc := a.utcTime + self.refreshInterval }
      (self.futureChainSymbolSelector a.utcTime) [] a

/-- Witness for C6 (amended) at a rule whose first candidate is invalid: the
error is raised and, the offending identifier being first, no universes. -/
theorem assetClass_rejection_witness :
    (∃ s ∈ modelBadFirst.futureChainSymbolSelector algo0.utcTime,
      s.securityType ≠ SecurityType.Future)
    ∧ (CreateUniversesRun modelBadFirst algo0).error
        = some "futureChainSymbolSelector must return future symbols." :=
  ⟨by decide, (assetClass_rejection modelBadFirst algo0 (by decide)).1⟩

/-- C7: canonicalization is idempotent on identifiers of the configured asset
class, and an identifier already flagged canonical is returned unchanged. -/
theorem canonicalize_idempotent :
    ∀ x : Symbol, x.securityType = SecurityType.Future →
      canonicalizeSymbol (canonicalizeSymbol x) = canonicalizeSymbol x
      ∧ (x.isCanonical = true → canonicalizeSymbol x = x) := by
  intro x hx
  cases hc : x.isCanonical <;> simp [canonicalizeSymbol, Symbol.Create, hc]

/-- Witness for C7 at the concrete ES future. -/
theorem canonicalize_idempotent_witness :
    symES.securityType = SecurityType.Future
    ∧ canonicalizeSymbol (canonicalizeSymbol symES) = canonicalizeSymbol symES :=
  ⟨by decide, (canonicalize_idempotent symES (by decide)).1⟩

/-- C9: on construction `nextRefreshTimeUtc` is the minimum representable
timestamp (`datetime.min`), so the very first poll is always due, and
`GetNextRefreshTimeUtc` is a pure read of the stored value (it takes the model
and returns a timestamp, mutating nothing). -/
theorem initial_schedule_state_and_pure_read :
    ∀ (refreshInterval : Nat) (selector : Nat → List Symbol)
      (us : Option UniverseSettings) (m : FutureUniverseSelectionModel) (t : Nat),
      (FutureUniverseSelectionModel.init refreshInterval selector us).nextRefreshTimeUtc
          = datetimeMin
      ∧ (FutureUniverseSelectionModel.init refreshInterval selector us).GetNextRefreshTimeUtc
          = datetimeMin
      ∧ m.GetNextRefreshTimeUtc = m.nextRefreshTimeUtc
      ∧ datetimeMin ≤ t := by
  intro r sel us m t
  exact ⟨rfl, rfl, rfl, Nat.zero_le t⟩

/-- C10: calling `CreateUniverses` only allocates a suspended generator and has
no observable effect: the model (hence `GetNextRefreshTimeUtc`) and the engine
state (hence the registry) are unchanged and the selection rule is not invoked;
the cycle's effects happen at the first resumption, using the engine clock as
of that (later) moment. -/
theorem createUniverses_call_has_no_effect :
    ∀ (self : FutureUniverseSelectionModel) (a aLater : AlgorithmState),
      (CreateUniverses self a).1 = GenState.created
      ∧ (CreateUniverses self a).2.1 = self
      ∧ (CreateUniverses self a).2.2 = a
      ∧ ((CreateUniverses self a).2.1).GetNextRefreshTimeUtc
          = self.GetNextRefreshTimeUtc
      ∧ ((genNext (CreateUniverses self a).1 self aLater).2.2.1).nextRefreshTimeUtc
          = aLater.utcTime + self.refreshInterval := by
  intro self a aLater
  exact ⟨rfl, rfl, rfl, rfl, rfl⟩

/-- C3: provisioning is idempotent. Resolving the same identifier twice in a
row returns the very same security and state; a lookup hit leaves the registry
untouched; only a miss appends exactly one security and one subscription
config; and across two full `CreateFutureChain` cycles for the same symbol the
second cycle creates no security and no subscription and returns a universe
for the same canonical identifier. -/
theorem provisioner_idempotent :
    ∀ (self : FutureUniverseSelectionModel) (a : AlgorithmState) (c : Symbol)
      (settings : UniverseSettings),
      resolveOrCreate self ((resolveOrCreate self a c settings).2) c settings
          = resolveOrCreate self a c settings
      ∧ ((∃ s ∈ a.securities, s.key = c) → (resolveOrCreate self a c settings).2 = a)
      ∧ ((¬ ∃ s ∈ a.securities, s.key = c) →
          ((resolveOrCreate self a c settings).2).securities
            = a.securities ++ [(resolveOrCreate self a c settings).1]
          ∧ ((resolveOrCreate self a c settings).2).subscriptions.length
            = a.subscriptions.length + 1)
      ∧ (∀ (sym : Symbol) (u1 u2 : FuturesChainUniverse) (a1 a2 : AlgorithmState),
          sym.securityType = SecurityType.Future →
          CreateFutureChain self a sym = Except.ok (u1, a1) →
          CreateFutureChain self a1 sym = Except.ok (u2, a2) →
          a2.securities.length = a1.securities.length
          ∧ a2.subscriptions = a1.subscriptions
          ∧ u2.futureChain.key = u1.futureChain.key) := by
  intro self a c settings
  refine ⟨?_, ?_, ?_, ?_⟩
  · cases hfe : a.securities.filter (fun s => s.key == c) with
    | nil =>
      have e1 : resolveOrCreate self a c settings
          = CreateFutureChainSecurity self a c settings := by
        rw [resolveOrCreate, hfe]
      have hsec : ((CreateFutureChainSecurity self a c settings).2).securities
          = a.securities ++ [(CreateFutureChainSecurity self a c settings).1] := rfl
      have hkey : ((CreateFutureChainSecurity self a c settings).1).key = c := rfl
      rw [e1, resolveOrCreate, hsec, List.filter_append, hfe]
      simp [hkey]
    | cons sec tl =>
      have e1 : resolveOrCreate self a c settings = (sec, a) := by
        rw [resolveOrCreate, hfe]
      rw [e1, resolveOrCreate, hfe]
  · rintro ⟨s, hmem, hkey⟩
    cases hfe : a.securities.filter (fun s => s.key == c) with
    | nil =>
      have : s ∈ a.securities.filter (fun s => s.key == c) :=
        List.mem_filter.mpr ⟨hmem, by simp [hkey]⟩
      rw [hfe] at this
      exact absurd this (List.not_mem_nil s)
    | cons sec tl =>
      rw [resolveOrCreate, hfe]
  · intro hn
    cases hfe : a.securities.filter (fun s => s.key == c) with
    | nil =>
      rw [resolveOrCreate, hfe]
      exact ⟨rfl, by simp [CreateFutureChainSecurity]⟩
    | cons sec tl =>
      exfalso
      have hmem : sec ∈ a.securities.filter (fun s => s.key == c) := by
        rw [hfe]; exact List.mem_cons_self _ _
      rcases List.mem_filter.mp hmem with ⟨hm, hp⟩
      exact hn ⟨sec, hm, by simpa using hp⟩
  · intro sym u1 u2 a1 a2 hs h1 h2
    rw [CreateFutureChain_eq self a hs] at h1
    injection h1 with hpair1
    injection hpair1 with hu1 ha1
    subst hu1
    subst ha1
    rw [CreateFutureChain_eq self _ hs] at h2
    injection h2 with hpair2
    injection hpair2 with hu2 ha2
    subst hu2
    subst ha2
    set cS := canonicalizeSymbol sym with hcSdef
    set s1 := (resolveOrCreate self a cS (effectiveSettings self a)).1 with hs1def
    set A1 := ((resolveOrCreate self a cS (effectiveSettings self a)).2).updateSecurity
      s1.SetFilter with hA1def
    have hs1mem : s1 ∈ ((resolveOrCreate self a cS (effectiveSettings self a)).2).securities :=
      resolveOrCreate_mem self a cS (effectiveSettings self a)
    have hs1key : s1.key = cS := resolveOrCreate_key self a cS (effectiveSettings self a)
    have hfc1mem : s1.SetFilter ∈ A1.securities := by
      rw [hA1def]
      simp only [AlgorithmState.updateSecurity]
      refine List.mem_map.mpr ⟨s1, hs1mem, ?_⟩
      simp [Security.SetFilter]
    have hfc1key : (s1.SetFilter).key = cS := by
      rw [Security.SetFilter_key]; exact hs1key
    have hne : A1.securities.filter (fun s => s.key == cS) ≠ [] :=
      List.ne_nil_of_mem (List.mem_filter.mpr ⟨hfc1mem, by simp [hfc1key]⟩)
    cases hf2 : A1.securities.filter (fun s => s.key == cS) with
    | nil => exact absurd hf2 hne
    | cons sec2 tl2 =>
      have hsec2mem : sec2 ∈ A1.securities.filter (fun s => s.key == cS) := by
        rw [hf2]; exact List.mem_cons_self _ _
      have hsec2key : sec2.key = cS := by
        have hp := (List.mem_filter.mp hsec2mem).2
        simpa using hp
      have e2 : resolveOrCreate self A1 cS (effectiveSettings self A1) = (sec2, A1) := by
        rw [resolveOrCreate, hf2]
      refine ⟨?_, ?_, ?_⟩
      · rw [e2]
        exact updateSecurity_length A1 sec2.SetFilter
      · rw [e2]
        exact updateSecurity_subscriptions A1 sec2.SetFilter
      · rw [e2]
        show (sec2.SetFilter).key = (s1.SetFilter).key
        rw [Security.SetFilter_key, Security.SetFilter_key, hsec2key, hs1key]

/-- Witness for C3: with an empty registry, resolving the canonical ES
identifier creates exactly one security, appended to the registry. -/
theorem provisioner_idempotent_witness :
    (¬ ∃ s ∈ algo0.securities, s.key = symESCanonical)
    ∧ ((resolveOrCreate modelXYX algo0 symESCanonical defaultSettings).2).securities
        = algo0.securities
          ++ [(resolveOrCreate modelXYX algo0 symESCanonical defaultSettings).1] :=
  ⟨by decide,
   ((provisioner_idempotent modelXYX algo0 symESCanonical defaultSettings).2.2.1
      (by decide)).1⟩

/-- C8: the default `Filter` implementation is the identity on its
filter-specification argument, and every `CreateFutureChain` cycle attaches the
hook (`SetFilter`) to the chain security it returns — the returned security is
exactly the resolved-or-created one with one more filter attachment, in the
resolution branch just as in the creation branch. -/
theorem filter_hook_default_identity_and_reattached :
    ∀ (self : FutureUniverseSelectionModel) (a : AlgorithmState) (sym : Symbol),
      (∀ (α : Type) (spec : α), self.Filter spec = spec)
      ∧ (∀ (u : FuturesChainUniverse) (a2 : AlgorithmState),
          sym.securityType = SecurityType.Future →
          CreateFutureChain self a sym = Except.ok (u, a2) →
          u.futureChain
            = ((resolveOrCreate self a (canonicalizeSymbol sym)
                (effectiveSettings self a)).1).SetFilter
          ∧ u.futureChain.filterSetCount
            = ((resolveOrCreate self a (canonicalizeSymbol sym)
                (effectiveSettings self a)).1).filterSetCount + 1) := by
  intro self a sym
  refine ⟨fun α spec => rfl, ?_⟩
  intro u a2 hs h
  rw [CreateFutureChain_eq self a hs] at h
  injection h with hpair
  injection hpair with hu ha
  subst hu
  exact ⟨rfl, rfl⟩

/-- Witness for C8 on a second cycle: `algoAfterES` already holds the canonical
ES security (resolution, not creation), and the hook is attached again. -/
theorem filter_hook_witness :
    symES.securityType = SecurityType.Future
    ∧ (okResult (CreateFutureChain modelXYX algoAfterES symES)).1.futureChain.filterSetCount
        = ((resolveOrCreate modelXYX algoAfterES (canonicalizeSymbol symES)
            (effectiveSettings modelXYX algoAfterES)).1).filterSetCount + 1 := by
  refine ⟨by decide, ?_⟩
  exact ((filter_hook_default_identity_and_reattached modelXYX algoAfterES symES).2
    (okResult (CreateFutureChain modelXYX algoAfterES symES)).1
    (okResult (CreateFutureChain modelXYX algoAfterES symES)).2
    (by decide) (by rfl)).2

end FutureSelection
